import Mathlib

/-!
Verification of the cfdev progress monitor (`src/bosh/bosh.go`) and the
HyperV supervisor contract (`src/hypervisor/hyperv_test.go`).

The shallow embedding below translates the Go source directly: the bosh
director is an external service, so its responses are modelled as explicit
environment values (`Except Unit` for fallible calls); real time is
abstracted to an elapsed value for the one-shot query and a tick counter for
the streaming loop; goroutine/channel behaviour is modelled by the
caller-phase function `vmProgressStart` and the background-loop function
`runStream` over a finite trace of per-tick orchestrator responses.
-/

namespace CfdevBosh

/-- State tags of a progress snapshot (const block, bosh.go lines 54-58). -/
def UploadingReleases : String := "uploading-releases"

def Deploying : String := "deploying"

def RunningErrand : String := "running-errand"

/-- One VM/process instance status as returned by `dep.VMInfos()`
(`boshdir.VMInfo`): the monitor reads only `ProcessState` and `Processes`. -/
structure VMInfo where
  ProcessState : String
  Processes : List String
deriving DecidableEq, Repr

/-- The `VMProgress` struct (bosh.go lines 60-66).  Go zero values are the
field defaults; `Duration` is in abstract time units. -/
structure VMProgress where
  State : String := ""
  Releases : Nat := 0
  Total : Nat := 0
  Done : Nat := 0
  Duration : Nat := 0
deriving DecidableEq, Repr

/-- The `numDone` counting loop (bosh.go lines 100-105 and 143-148):
instances whose `ProcessState` is `"running"` and whose process list is
non-empty. -/
def countDone : List VMInfo → Nat
  | [] => 0
  | v :: rest =>
    (if v.ProcessState == "running" && v.Processes.length > 0 then 1 else 0) + countDone rest

/-- Director operations the monitor can invoke, for the operation log of the
one-shot query. -/
inductive DirOp where
  | findDeployment
  | vmInfos
  | releases
deriving DecidableEq, Repr

/-- Orchestrator responses observed by one `GetVMProgress` call:
`findAttempts` lists the outcomes of successive `FindDeployment` calls
(`true` = no error), `vmInfos` the result of `dep.VMInfos()`, `releases`
the result of `b.dir.Releases()`. -/
structure DirectorEnv where
  findAttempts : List Bool
  vmInfos : Except Unit (List VMInfo)
  releases : Except Unit (List String)

/-- The busy-poll `for { dep, err = FindDeployment(...); if err == nil break }`
(bosh.go lines 72-78 and 126-132): index of the first successful attempt,
`none` when no attempt in the observed sequence succeeds (the loop is still
spinning). -/
def busyPollFind : List Bool → Option Nat
  | [] => none
  | r :: rest => if r then some 0 else (busyPollFind rest).map (fun n => n + 1)

/-- `GetVMProgress` (bosh.go lines 119-151), instrumented with the list of
director operations performed, in order.  `none` models divergence of the
busy-poll when no `FindDeployment` attempt succeeds. -/
def getVMProgress (elapsed : Nat) (isErrand : Bool) (env : DirectorEnv) :
    Option (VMProgress × List DirOp) :=
  if isErrand then
    some ({ State := RunningErrand, Duration := elapsed }, [])
  else
    match busyPollFind env.findAttempts with
    | none => none
    | some k =>
      let findOps := List.replicate (k + 1) DirOp.findDeployment
      let vmInfos :=
        match env.vmInfos with
        | Except.ok l => l
        | Except.error _ => []
      let failedOrEmpty :=
        match env.vmInfos with
        | Except.ok l => l.isEmpty
        | Except.error _ => true
      if failedOrEmpty then
        match env.releases with
        | Except.ok rels =>
          some ({ State := UploadingReleases, Releases := rels.length, Duration := elapsed },
            findOps ++ [DirOp.vmInfos, DirOp.releases])
        | Except.error _ =>
          some
            ({ State := Deploying, Total := vmInfos.length, Done := countDone vmInfos,
               Duration := elapsed },
             findOps ++ [DirOp.vmInfos, DirOp.releases])
      else
        some
          ({ State := Deploying, Total := vmInfos.length, Done := countDone vmInfos,
             Duration := elapsed },
           findOps ++ [DirOp.vmInfos])

/-- What the streaming method returns to its caller once the deployment
resolves: how many `FindDeployment` calls the calling context made, and the
capacity of the channel it created (`make(chan VMProgress, 1)`, line 80). -/
structure StreamStart where
  findCalls : Nat
  capacity : Nat
deriving DecidableEq, Repr

/-- The caller phase of `VMProgress` (bosh.go lines 68-84): the calling
context busy-polls `FindDeployment` (lines 72-78) and only then creates the
capacity-1 channel and spawns the background goroutine; `none` means the call
has not returned within the observed attempt outcomes. -/
def vmProgressStart (attempts : List Bool) : Option StreamStart :=
  (busyPollFind attempts).map (fun k => { findCalls := k + 1, capacity := 1 })

/-- Orchestrator responses observed by one tick of the streaming loop. -/
structure TickEnv where
  vmInfos : Except Unit (List VMInfo)
  releases : Except Unit (List String)

/-- What a tick with a failed or empty `VMInfos` sends (bosh.go lines
89-97): while the running `total` is still zero, a release-count snapshot if
`Releases()` succeeds, else nothing. -/
def emptyTickEmit (total tick : Nat) (e : TickEnv) : List VMProgress :=
  if total = 0 then
    match e.releases with
    | Except.ok rels => [{ Releases := rels.length, Duration := tick }]
    | Except.error _ => []
  else []

/-- The streamed values and whether `close(ch)` was executed. -/
structure StreamResult where
  out : List VMProgress
  closed : Bool
deriving DecidableEq, Repr

/-- The background goroutine of `VMProgress` (bosh.go lines 82-114), run
over a finite trace of per-tick responses.  `total` is the running
ever-seen instance count (starts at 0, line 81); `tick` is the tick counter
standing in for elapsed time (each iteration sleeps first, line 86). -/
def runStream : List TickEnv → Nat → Nat → StreamResult
  | [], _, _ => { out := [], closed := false }
  | e :: rest, total, tick =>
    match e.vmInfos with
    | Except.error _ =>
      let r := runStream rest total (tick + 1)
      { out := emptyTickEmit total tick e ++ r.out, closed := r.closed }
    | Except.ok l =>
      if l.isEmpty then
        let r := runStream rest total (tick + 1)
        { out := emptyTickEmit total tick e ++ r.out, closed := r.closed }
      else
        let snap : VMProgress := { Total := l.length, Done := countDone l, Duration := tick }
        if l.length ≤ countDone l then
          { out := [snap], closed := true }
        else
          let r := runStream rest l.length (tick + 1)
          { out := snap :: r.out, closed := r.closed }

/-- A tick whose response makes the loop close the channel and return
(bosh.go lines 109-112): `VMInfos` succeeded, the list is non-empty, and
`numDone >= len(vmInfos)`. -/
def closingTick (e : TickEnv) : Bool :=
  match e.vmInfos with
  | Except.ok l => !l.isEmpty && decide (l.length ≤ countDone l)
  | Except.error _ => false

end CfdevBosh

namespace CfdevHyperV

/-- Observable power state of an existing VM. -/
inductive HVState where
  | off
  | running
deriving DecidableEq, Repr

/-- Errors of the HyperV supervisor relevant to `Start`. -/
inductive HVError where
  | notFoundError (msg : String)
deriving DecidableEq, Repr

/-- The exact message contract asserted by hyperv_test.go line 141. -/
def notFoundMessage (name : String) : String :=
  "hyperv vm with name " ++ name ++ " does not exist"

/-- Modelled from the spec: the HyperV supervisor implementation (hyperv.go)
is not among the shown sources; only its test is.  Per spec section 4.1 and the
test at hyperv_test.go lines 139-143, `Start` requires the VM to exist: on a
nonexistent name it fails in a single shot (no internal retry loop) with a
`NotFoundError` carrying exactly `"hyperv vm with name <name> does not
exist"`; on an existing VM it starts it (idempotent when already running).
The hypervisor's VM table is an association list from name to power state. -/
def hypervStart (vms : List (String × HVState)) (name : String) :
    Except HVError (List (String × HVState)) :=
  match vms.lookup name with
  | none => Except.error (HVError.notFoundError (notFoundMessage name))
  | some _ =>
    Except.ok (vms.map (fun p => if p.fst = name then (p.fst, HVState.running) else p))

end CfdevHyperV

namespace CfdevBosh

/-- The per-instance counting loop never counts more than the list length. -/
theorem countDone_le_length (l : List VMInfo) : countDone l ≤ l.length := by
  induction l with
  | nil => simp [countDone]
  | cons v rest ih =>
    simp only [countDone, List.length_cons]
    split <;> omega

/-- A successful busy-poll saw exactly its reported number of failures first. -/
theorem busyPollFind_spec :
    ∀ (attempts : List Bool) (k : Nat), busyPollFind attempts = some k →
      attempts.take (k + 1) = List.replicate k false ++ [true]
  | [], k, h => by simp [busyPollFind] at h
  | r :: rest, k, h => by
    by_cases hr : r = true
    · subst hr
      simp [busyPollFind] at h
      subst h
      simp
    · rw [Bool.not_eq_true] at hr
      subst hr
      simp only [busyPollFind, if_neg (Bool.false_ne_true)] at h
      match hrec : busyPollFind rest with
      | none => rw [hrec] at h; simp at h
      | some m =>
        rw [hrec] at h
        simp at h
        subst h
        have ih := busyPollFind_spec rest m hrec
        simp [List.take, ih, List.replicate_succ]

/-- The busy-poll succeeds exactly when some attempt succeeds. -/
theorem busyPollFind_isSome :
    ∀ attempts : List Bool, (busyPollFind attempts).isSome = attempts.any (fun r => r)
  | [] => rfl
  | r :: rest => by
    by_cases hr : r = true
    · subst hr; simp [busyPollFind]
    · rw [Bool.not_eq_true] at hr
      subst hr
      simp [busyPollFind, busyPollFind_isSome rest]

/-- Demo instance converged: running with a non-empty process list. -/
def vmRunning : VMInfo := { ProcessState := "running", Processes := ["proc"] }

/-- Demo instance not converged. -/
def vmStarting : VMInfo := { ProcessState := "starting", Processes := ["proc"] }

/-- C7: with `isErrand` true, `GetVMProgress` short-circuits to a
`running-errand` snapshot carrying only the elapsed duration (releases, total
and done are the zero defaults), and its operation log is empty: no
`FindDeployment`, `VMInfos` or `Releases` call is made. -/
theorem getVMProgress_errand_short_circuit (elapsed : Nat) (env : DirectorEnv) :
    getVMProgress elapsed true env =
      some ({ State := RunningErrand, Duration := elapsed }, []) := rfl

/-- C1: with `isErrand` false, once the deployment handle resolves and the
instance list request succeeds with a non-empty list, the result is a
`deploying` snapshot whose total is the number of instances and whose done is
the number of instances with `ProcessState = "running"` and a non-empty
process list. -/
theorem getVMProgress_instances_deploying (elapsed : Nat) (env : DirectorEnv)
    (k : Nat) (l : List VMInfo)
    (hfind : busyPollFind env.findAttempts = some k)
    (hvm : env.vmInfos = Except.ok l) (hne : l ≠ []) :
    getVMProgress elapsed false env =
      some ({ State := Deploying, Total := l.length, Done := countDone l, Duration := elapsed },
        List.replicate (k + 1) DirOp.findDeployment ++ [DirOp.vmInfos]) := by
  cases l with
  | nil => exact absurd rfl hne
  | cons v rest => simp [getVMProgress, hfind, hvm]

/-- Witness for C1 at a concrete environment. -/
theorem getVMProgress_instances_deploying_witness :
    busyPollFind [true] = some 0 ∧
    getVMProgress 3 false
        { findAttempts := [true], vmInfos := Except.ok [vmRunning, vmStarting],
          releases := Except.error () } =
      some ({ State := Deploying, Total := [vmRunning, vmStarting].length,
              Done := countDone [vmRunning, vmStarting], Duration := 3 },
        List.replicate (0 + 1) DirOp.findDeployment ++ [DirOp.vmInfos]) :=
  ⟨rfl, getVMProgress_instances_deploying 3 _ 0 [vmRunning, vmStarting] rfl rfl (by decide)⟩

/-- Concrete environment for C3: handle resolves, instance list empty,
release catalog fetchable with zero releases. -/
def envC3 : DirectorEnv :=
  { findAttempts := [true], vmInfos := Except.ok [], releases := Except.ok [] }

/-- C3 counterexample: with an empty instance list and a fetchable release
catalog of 0 releases, `GetVMProgress` returns an `uploading-releases`
snapshot with release count 0, not a `deploying` snapshot. -/
theorem getVMProgress_zero_releases_counterexample :
    getVMProgress 7 false envC3 =
      some ({ State := UploadingReleases, Releases := 0, Duration := 7 },
        [DirOp.findDeployment, DirOp.vmInfos, DirOp.releases]) ∧
    UploadingReleases ≠ Deploying := ⟨rfl, by decide⟩

/-- C3 amended: with the handle resolved, an empty instance list, and the
release catalog fetchable, `GetVMProgress` (isErrand false) returns an
`uploading-releases` snapshot whose release count is the catalog size (0 for
an empty catalog); the zero-valued `deploying` snapshot arises only when the
release query also fails. -/
theorem getVMProgress_empty_catalog_uploading (elapsed k : Nat) (env : DirectorEnv)
    (rels : List String)
    (hfind : busyPollFind env.findAttempts = some k)
    (hvm : env.vmInfos = Except.ok [])
    (hrel : env.releases = Except.ok rels) :
    getVMProgress elapsed false env =
      some ({ State := UploadingReleases, Releases := rels.length, Duration := elapsed },
        List.replicate (k + 1) DirOp.findDeployment ++ [DirOp.vmInfos, DirOp.releases]) := by
  simp [getVMProgress, hfind, hvm, hrel]

/-- Witness for the amended C3 at the concrete C3 environment. -/
theorem getVMProgress_empty_catalog_uploading_witness :
    busyPollFind envC3.findAttempts = some 0 ∧
    getVMProgress 7 false envC3 =
      some ({ State := UploadingReleases, Releases := List.length ([] : List String),
              Duration := 7 },
        List.replicate (0 + 1) DirOp.findDeployment ++ [DirOp.vmInfos, DirOp.releases]) :=
  ⟨rfl, getVMProgress_empty_catalog_uploading 7 0 envC3 [] rfl rfl rfl⟩

/-- C4: with the handle resolved, if the instance list request fails or
returns an empty list and the release query also fails, `GetVMProgress`
falls through to a `deploying` snapshot with total 0 and done 0. -/
theorem getVMProgress_fallback_deploying (elapsed k : Nat) (env : DirectorEnv)
    (hvm : env.vmInfos = Except.error () ∨ env.vmInfos = Except.ok [])
    (hfind : busyPollFind env.findAttempts = some k)
    (hrel : env.releases = Except.error ()) :
    getVMProgress elapsed false env =
      some ({ State := Deploying, Total := 0, Done := 0, Duration := elapsed },
        List.replicate (k + 1) DirOp.findDeployment ++ [DirOp.vmInfos, DirOp.releases]) := by
  rcases hvm with h | h <;> simp [getVMProgress, hfind, h, hrel, countDone]

/-- Witness for C4 with a failing instance-list request. -/
theorem getVMProgress_fallback_deploying_witness :
    (({ findAttempts := [false, true], vmInfos := Except.error (),
        releases := Except.error () } : DirectorEnv).vmInfos = Except.error () ∨
      ({ findAttempts := [false, true], vmInfos := Except.error (),
         releases := Except.error () } : DirectorEnv).vmInfos = Except.ok []) ∧
    getVMProgress 9 false
        { findAttempts := [false, true], vmInfos := Except.error (),
          releases := Except.error () } =
      some ({ State := Deploying, Total := 0, Done := 0, Duration := 9 },
        List.replicate (1 + 1) DirOp.findDeployment ++ [DirOp.vmInfos, DirOp.releases]) :=
  ⟨Or.inl rfl,
   getVMProgress_fallback_deploying 9 1 _ (Or.inl rfl) rfl rfl⟩

/-- Unfolding lemma: a tick whose instance query failed or returned an empty
list emits `emptyTickEmit` and continues with the next tick. -/
theorem runStream_cons_skip (e : TickEnv) (rest : List TickEnv) (total tick : Nat)
    (h : e.vmInfos = Except.error () ∨ e.vmInfos = Except.ok []) :
    runStream (e :: rest) total tick =
      { out := emptyTickEmit total tick e ++ (runStream rest total (tick + 1)).out,
        closed := (runStream rest total (tick + 1)).closed } := by
  rcases h with h | h <;> simp [runStream, h]

/-- Unfolding lemma: a tick with a non-empty instance list emits the count
snapshot and closes exactly when `numDone >= len(vmInfos)`. -/
theorem runStream_cons_instances (e : TickEnv) (rest : List TickEnv) (total tick : Nat)
    (v : VMInfo) (vs : List VMInfo) (h : e.vmInfos = Except.ok (v :: vs)) :
    runStream (e :: rest) total tick =
      if (v :: vs).length ≤ countDone (v :: vs) then
        { out := [{ Total := (v :: vs).length, Done := countDone (v :: vs), Duration := tick }],
          closed := true }
      else
        { out := { Total := (v :: vs).length, Done := countDone (v :: vs),
                   Duration := tick } :: (runStream rest (v :: vs).length (tick + 1)).out,
          closed := (runStream rest (v :: vs).length (tick + 1)).closed } := by
  by_cases hc : (v :: vs).length ≤ countDone (v :: vs) <;> simp [runStream, h, hc]

/-- Any value emitted by an empty-or-failed tick is a release-count snapshot
produced while the running total was still zero. -/
theorem emptyTickEmit_mem (total tick : Nat) (e : TickEnv) (p : VMProgress)
    (hp : p ∈ emptyTickEmit total tick e) :
    total = 0 ∧ ∃ rels, e.releases = Except.ok rels ∧
      p = { Releases := rels.length, Duration := tick } := by
  by_cases ht : total = 0
  · refine ⟨ht, ?_⟩
    unfold emptyTickEmit at hp
    rw [if_pos ht] at hp
    cases hrel : e.releases with
    | ok rels =>
      rw [hrel] at hp
      simp at hp
      exact ⟨rels, rfl, hp⟩
    | error u =>
      rw [hrel] at hp
      simp at hp
  · unfold emptyTickEmit at hp
    rw [if_neg ht] at hp
    simp at hp

/-- Every value the streaming loop emits has an empty `State` tag and a done
count bounded by its total. -/
theorem runStream_out_mem :
    ∀ (envs : List TickEnv) (total tick : Nat) (p : VMProgress),
      p ∈ (runStream envs total tick).out → p.State = "" ∧ p.Done ≤ p.Total
  | [], total, tick, p, hp => by simp [runStream] at hp
  | e :: rest, total, tick, p, hp => by
    cases he : e.vmInfos with
    | error u =>
      rw [runStream_cons_skip e rest total tick (Or.inl he)] at hp
      rcases List.mem_append.mp hp with hmem | hmem
      · obtain ⟨-, rels, -, hval⟩ := emptyTickEmit_mem total tick e p hmem
        subst hval
        exact ⟨rfl, Nat.le_refl 0⟩
      · exact runStream_out_mem rest total (tick + 1) p hmem
    | ok l =>
      cases l with
      | nil =>
        rw [runStream_cons_skip e rest total tick (Or.inr he)] at hp
        rcases List.mem_append.mp hp with hmem | hmem
        · obtain ⟨-, rels, -, hval⟩ := emptyTickEmit_mem total tick e p hmem
          subst hval
          exact ⟨rfl, Nat.le_refl 0⟩
        · exact runStream_out_mem rest total (tick + 1) p hmem
      | cons v vs =>
        rw [runStream_cons_instances e rest total tick v vs he] at hp
        by_cases hc : (v :: vs).length ≤ countDone (v :: vs)
        · rw [if_pos hc] at hp
          simp at hp
          subst hp
          exact ⟨rfl, countDone_le_length _⟩
        · rw [if_neg hc] at hp
          rcases List.mem_cons.mp hp with hmem | hmem
          · subst hmem
            exact ⟨rfl, countDone_le_length _⟩
          · exact runStream_out_mem rest (v :: vs).length (tick + 1) p hmem

/-- A cons whose tail is non-empty has the tail's last element. -/
theorem getLast?_cons_of_ne_nil {α : Type} (a : α) (l : List α) (h : l ≠ []) :
    (a :: l).getLast? = l.getLast? :=
  List.getLast?_append_of_ne_nil [a] h

/-- C2: the streaming loop closes the channel exactly when some executed tick
observes a non-empty instance list with `done >= total` (no other condition
closes the stream), and when it closes, the last emitted value is the
snapshot carrying those counts. -/
theorem vmProgress_stream_termination :
    ∀ (envs : List TickEnv) (total tick : Nat),
      (runStream envs total tick).closed = envs.any closingTick ∧
      ((runStream envs total tick).closed = true →
        ∃ e ∈ envs, ∃ l, e.vmInfos = Except.ok l ∧ l ≠ [] ∧ l.length ≤ countDone l ∧
          ∃ d, (runStream envs total tick).out.getLast? =
            some { Total := l.length, Done := countDone l, Duration := d })
  | [], total, tick => by simp [runStream]
  | e :: rest, total, tick => by
    cases he : e.vmInfos with
    | error u =>
      have hct : closingTick e = false := by simp [closingTick, he]
      have ih := vmProgress_stream_termination rest total (tick + 1)
      rw [runStream_cons_skip e rest total tick (Or.inl he)]
      constructor
      · simp only [List.any_cons, hct, Bool.false_or]
        exact ih.1
      · intro hcl
        obtain ⟨e', he', l, hl1, hl2, hl3, d, hlast⟩ := ih.2 hcl
        refine ⟨e', List.mem_cons_of_mem _ he', l, hl1, hl2, hl3, d, ?_⟩
        rw [List.getLast?_append_of_ne_nil _
          (by intro hnil; rw [hnil] at hlast; simp at hlast)]
        exact hlast
    | ok l =>
      cases l with
      | nil =>
        have hct : closingTick e = false := by simp [closingTick, he]
        have ih := vmProgress_stream_termination rest total (tick + 1)
        rw [runStream_cons_skip e rest total tick (Or.inr he)]
        constructor
        · simp only [List.any_cons, hct, Bool.false_or]
          exact ih.1
        · intro hcl
          obtain ⟨e', he', l, hl1, hl2, hl3, d, hlast⟩ := ih.2 hcl
          refine ⟨e', List.mem_cons_of_mem _ he', l, hl1, hl2, hl3, d, ?_⟩
          rw [List.getLast?_append_of_ne_nil _
            (by intro hnil; rw [hnil] at hlast; simp at hlast)]
          exact hlast
      | cons v vs =>
        rw [runStream_cons_instances e rest total tick v vs he]
        by_cases hc : (v :: vs).length ≤ countDone (v :: vs)
        · rw [if_pos hc]
          have hct : closingTick e = true := by
            simp only [closingTick, he, List.isEmpty_cons, Bool.not_false, Bool.true_and,
              decide_eq_true_eq]
            exact hc
          constructor
          · simp [List.any_cons, hct]
          · intro _
            exact ⟨e, List.mem_cons_self _ _, v :: vs, he, by simp, hc, tick, rfl⟩
        · rw [if_neg hc]
          have hct : closingTick e = false := by
            simp only [closingTick, he, List.isEmpty_cons, Bool.not_false, Bool.true_and,
              decide_eq_false_iff_not]
            exact hc
          have ih := vmProgress_stream_termination rest (v :: vs).length (tick + 1)
          constructor
          · simp only [List.any_cons, hct, Bool.false_or]
            exact ih.1
          · intro hcl
            obtain ⟨e', he', l, hl1, hl2, hl3, d, hlast⟩ := ih.2 hcl
            refine ⟨e', List.mem_cons_of_mem _ he', l, hl1, hl2, hl3, d, ?_⟩
            rw [getLast?_cons_of_ne_nil _ _
              (by intro hnil; rw [hnil] at hlast; simp at hlast)]
            exact hlast

/-- Converged tick for the C2 witness: two instances, both running with
non-empty process lists. -/
def tickConverged : TickEnv :=
  { vmInfos := Except.ok [vmRunning, vmRunning], releases := Except.error () }

/-- Witness for C2 on the two-instance converged scenario. -/
theorem vmProgress_stream_termination_witness :
    (runStream [tickConverged] 0 1).closed = [tickConverged].any closingTick ∧
    ∃ e ∈ [tickConverged], ∃ l, e.vmInfos = Except.ok l ∧ l ≠ [] ∧ l.length ≤ countDone l ∧
      ∃ d, (runStream [tickConverged] 0 1).out.getLast? =
        some { Total := l.length, Done := countDone l, Duration := d } :=
  ⟨(vmProgress_stream_termination [tickConverged] 0 1).1,
   (vmProgress_stream_termination [tickConverged] 0 1).2 (by decide)⟩

/-- C5: a tick whose instance query fails emits either a single
release-count snapshot (when the catalog query succeeds and the running total
is still zero) or nothing at all, never closes the stream by itself, and the
loop proceeds to the next tick; no error value can be emitted. -/
theorem stream_failed_tick_skipped (envs : List TickEnv) (e : TickEnv) (total tick : Nat)
    (h : e.vmInfos = Except.error ()) :
    (runStream (e :: envs) total tick).out =
      emptyTickEmit total tick e ++ (runStream envs total (tick + 1)).out ∧
    (runStream (e :: envs) total tick).closed = (runStream envs total (tick + 1)).closed ∧
    (emptyTickEmit total tick e = [] ∨
      ∃ rels, e.releases = Except.ok rels ∧
        emptyTickEmit total tick e = [{ Releases := rels.length, Duration := tick }]) := by
  rw [runStream_cons_skip e envs total tick (Or.inl h)]
  refine ⟨rfl, rfl, ?_⟩
  by_cases ht : total = 0
  · cases hrel : e.releases with
    | ok rels =>
      right
      exact ⟨rels, rfl, by simp [emptyTickEmit, ht, hrel]⟩
    | error u =>
      left
      simp [emptyTickEmit, ht, hrel]
  · left
    simp [emptyTickEmit, ht]

/-- Failed tick for the C5 witness. -/
def tickFailed : TickEnv := { vmInfos := Except.error (), releases := Except.ok ["r1"] }

/-- Witness for C5 with a failing instance query and a fetchable catalog. -/
theorem stream_failed_tick_skipped_witness :
    (runStream [tickFailed] 0 1).out =
      emptyTickEmit 0 1 tickFailed ++ (runStream [] 0 2).out ∧
    (runStream [tickFailed] 0 1).closed = (runStream [] 0 2).closed ∧
    (emptyTickEmit 0 1 tickFailed = [] ∨
      ∃ rels, tickFailed.releases = Except.ok rels ∧
        emptyTickEmit 0 1 tickFailed = [{ Releases := rels.length, Duration := 1 }]) :=
  stream_failed_tick_skipped [] tickFailed 0 1 rfl

/-- Any snapshot `GetVMProgress` returns has its done count bounded by its
total count. -/
theorem getVMProgress_done_le (elapsed : Nat) (isErrand : Bool) (env : DirectorEnv)
    (p : VMProgress) (ops : List DirOp)
    (h : getVMProgress elapsed isErrand env = some (p, ops)) :
    p.Done ≤ p.Total := by
  simp only [getVMProgress] at h
  split at h
  · simp only [Option.some.injEq, Prod.mk.injEq] at h
    obtain ⟨hp, -⟩ := h
    subst hp
    exact Nat.le_refl 0
  · split at h
    · simp at h
    · split at h
      · split at h
        · simp only [Option.some.injEq, Prod.mk.injEq] at h
          obtain ⟨hp, -⟩ := h
          subst hp
          exact Nat.le_refl 0
        · simp only [Option.some.injEq, Prod.mk.injEq] at h
          obtain ⟨hp, -⟩ := h
          subst hp
          exact countDone_le_length _
      · simp only [Option.some.injEq, Prod.mk.injEq] at h
        obtain ⟨hp, -⟩ := h
        subst hp
        exact countDone_le_length _

/-- C6: every snapshot produced by `GetVMProgress` and every snapshot emitted
on a streaming session satisfies `done <= total`. -/
theorem progress_done_le_total (elapsed : Nat) (isErrand : Bool) (env : DirectorEnv)
    (envs : List TickEnv) (total tick : Nat) :
    (∀ p ops, getVMProgress elapsed isErrand env = some (p, ops) → p.Done ≤ p.Total) ∧
    ∀ p ∈ (runStream envs total tick).out, p.Done ≤ p.Total :=
  ⟨fun p ops h => getVMProgress_done_le elapsed isErrand env p ops h,
   fun p hp => (runStream_out_mem envs total tick p hp).2⟩

/-- Concrete environment for the C6 witness. -/
def envC6 : DirectorEnv :=
  { findAttempts := [true], vmInfos := Except.ok [vmRunning, vmStarting],
    releases := Except.error () }

/-- Concrete snapshot `GetVMProgress` returns on `envC6`. -/
def snapC6 : VMProgress :=
  { State := Deploying, Total := 2, Done := 1, Duration := 3 }

/-- Trace tick for the C6 witness: two instances, one converged. -/
def tickConverged2 : TickEnv :=
  { vmInfos := Except.ok [vmRunning, vmStarting], releases := Except.error () }

/-- Witness for C6 at a concrete environment and trace. -/
theorem progress_done_le_total_witness :
    snapC6.Done ≤ snapC6.Total ∧
    ∀ p ∈ (runStream [tickConverged2] 0 1).out, p.Done ≤ p.Total :=
  ⟨(progress_done_le_total 3 false envC6 [tickConverged2] 0 1).1 snapC6
      [DirOp.findDeployment, DirOp.vmInfos] (by decide),
   (progress_done_le_total 3 false envC6 [tickConverged2] 0 1).2⟩

/-- C10: every snapshot emitted on a streaming session carries an empty
`State` tag — the streaming producer never tags `uploading-releases` or
`deploying`, unlike the one-shot query. -/
theorem stream_snapshots_state_untagged (envs : List TickEnv) (total tick : Nat)
    (p : VMProgress) (hp : p ∈ (runStream envs total tick).out) :
    p.State = "" ∧ p.State ≠ UploadingReleases ∧ p.State ≠ Deploying := by
  have h := (runStream_out_mem envs total tick p hp).1
  refine ⟨h, ?_, ?_⟩ <;> rw [h] <;> decide

/-- Single converged tick for the C10 witness. -/
def tickOne : TickEnv := { vmInfos := Except.ok [vmRunning], releases := Except.error () }

/-- Witness for C10 on the snapshot emitted by a concrete session. -/
theorem stream_snapshots_state_untagged_witness :
    ({ Total := 1, Done := 1, Duration := 1 } : VMProgress).State = "" ∧
    ({ Total := 1, Done := 1, Duration := 1 } : VMProgress).State ≠ UploadingReleases ∧
    ({ Total := 1, Done := 1, Duration := 1 } : VMProgress).State ≠ Deploying :=
  stream_snapshots_state_untagged [tickOne] 0 1
    { Total := 1, Done := 1, Duration := 1 } (by decide)

/-- C9 counterexample: with three failed `FindDeployment` attempts observed,
the `VMProgress` call has still not returned its channel — the calling
context, not the background task, is stuck busy-polling the handle. -/
theorem vmProgressStart_blocks_counterexample :
    vmProgressStart [false, false, false] = none := rfl

/-- C9 amended: `VMProgress` creates the capacity-1 channel and the
background task only after the calling context itself resolves the deployment
handle by busy-polling `FindDeployment`; the call returns exactly when some
attempt succeeds, having made one `FindDeployment` call per failed attempt
plus the successful one. -/
theorem vmProgressStart_caller_resolves (attempts : List Bool) :
    (vmProgressStart attempts).isSome = attempts.any (fun r => r) ∧
    ∀ s : StreamStart, vmProgressStart attempts = some s →
      s.capacity = 1 ∧ 1 ≤ s.findCalls ∧
      attempts.take s.findCalls = List.replicate (s.findCalls - 1) false ++ [true] := by
  constructor
  · rw [← busyPollFind_isSome]
    unfold vmProgressStart
    cases busyPollFind attempts <;> rfl
  · intro s hs
    unfold vmProgressStart at hs
    match hk : busyPollFind attempts with
    | none => rw [hk] at hs; simp at hs
    | some k =>
      rw [hk] at hs
      simp at hs
      subst hs
      refine ⟨rfl, by simp, ?_⟩
      simpa using busyPollFind_spec attempts k hk

/-- Witness for the amended C9 at a concrete attempt sequence. -/
theorem vmProgressStart_caller_resolves_witness :
    (vmProgressStart [false, true]).isSome = [false, true].any (fun r => r) ∧
    (({ findCalls := 2, capacity := 1 } : StreamStart).capacity = 1 ∧
      1 ≤ ({ findCalls := 2, capacity := 1 } : StreamStart).findCalls ∧
      [false, true].take ({ findCalls := 2, capacity := 1 } : StreamStart).findCalls =
        List.replicate (({ findCalls := 2, capacity := 1 } : StreamStart).findCalls - 1)
            false ++ [true]) :=
  ⟨(vmProgressStart_caller_resolves [false, true]).1,
   (vmProgressStart_caller_resolves [false, true]).2 { findCalls := 2, capacity := 1 } rfl⟩

end CfdevBosh

namespace CfdevHyperV

/-- C8: starting a VM whose name is not in the hypervisor fails with a
`NotFoundError` whose message is exactly
`"hyperv vm with name <name> does not exist"`; the single-shot model performs
no internal retry. -/
theorem hypervStart_not_found (vms : List (String × HVState)) (name : String)
    (h : vms.lookup name = none) :
    hypervStart vms name =
      Except.error (HVError.notFoundError
        ("hyperv vm with name " ++ name ++ " does not exist")) := by
  unfold hypervStart
  rw [h]
  rfl

/-- Witness for C8 at a concrete hypervisor table and name. -/
theorem hypervStart_not_found_witness :
    ([("other", HVState.off)] : List (String × HVState)).lookup "cfdev" = none ∧
    hypervStart [("other", HVState.off)] "cfdev" =
      Except.error (HVError.notFoundError
        ("hyperv vm with name " ++ "cfdev" ++ " does not exist")) :=
  ⟨by decide, hypervStart_not_found [("other", HVState.off)] "cfdev" (by decide)⟩

end CfdevHyperV
